import Mathlib

/-!
Verification development for the hotlib crate (src/lib.rs).

The Rust source is shallowly embedded: byte strings stand for Rust `String`
and `PathBuf` values, a small explicit filesystem model stands for the
relevant `std::fs` operations, and external effects (subprocesses, the
dynamic loader, the notify watcher) are recorded as an operation trace and
driven by an environment of injected success flags.

External crates used by the naming scheme are modelled from their own
implementations, since the repository pins them as dependencies:
  - `humantime::format_rfc3339` (Smart precision): the musl-derived
    civil-calendar algorithm, producing `YYYY-MM-DDTHH:MM:SS[.fff[fff[fff]]]Z`
    with 0, 3, 6 or 9 subsecond digits (none when the nanosecond part is 0,
    otherwise the smallest of 3/6/9 digits representing it exactly).
    Rust `i64` division and remainder truncate toward zero, which is
    `Int.tdiv` and `Int.tmod`.
  - `slug::slugify` restricted to ASCII input (the RFC3339 text is ASCII, so
    the deunicode transliteration step is the identity): alphanumerics are
    kept (uppercase lowered), every other run of characters becomes a single
    dash, and a single trailing dash is removed.
-/

set_option maxRecDepth 8000

/-! ### Byte strings and paths -/

abbrev Bytes := List Nat

def strBytes (s : String) : Bytes := s.data.map Char.toNat

/-- Boolean test that `pat` is a leading run of `s`. -/
def leadsWith : Bytes → Bytes → Bool
  | [], _ => true
  | _ :: _, [] => false
  | a :: as, b :: bs => a == b && leadsWith as bs

/-- Boolean test that `tail` is a trailing run of `s`. -/
def trailsWith (tail s : Bytes) : Bool := leadsWith tail.reverse s.reverse

/-- Rust `Path::ends_with` for a single-component needle, as used by
`watch` on `Cargo.toml`: either the whole path is that component or the
path ends with `/` followed by it. -/
def endsWithFile (p comp : Bytes) : Bool :=
  p == comp || trailsWith (47 :: comp) p

/-- Rust `Path::parent`: strip the final `/`-separated component. `none`
models the cases where `Path::parent` returns `None` and the `expect` in
`watch` would panic. -/
def parentPath (p : Bytes) : Option Bytes :=
  if p = [] ∨ p = [47] then none
  else
    match p.reverse.dropWhile (fun b => !(b == 47)) with
    | 47 :: pre => some pre.reverse
    | _ => some []

/-! ### Platform conditionals of lib.rs -/

inductive Platform
  | linux
  | macos
  | ios
  | windows
deriving DecidableEq

/-- The function `dylib_ext` of lib.rs (the unknown-platform arm panics and
is not representable here, so `Platform` lists only the four known targets). -/
def dylibExt : Platform → Bytes
  | .linux => strBytes (r"so")
  | .macos | .ios => strBytes (r"dylib")
  | .windows => strBytes (r"dll")

/-- The functions `Build::file_stem` and `TempLibrary::file_stem`:
`lib{name}`, except on windows where the stem is the bare name. -/
def fileStemBytes (pl : Platform) (libName : Bytes) : Bytes :=
  if pl = .windows then libName else strBytes (r"lib") ++ libName

/-! ### humantime::format_rfc3339 (Smart precision)

A post-epoch `SystemTime` is the pair `(secs, nanos)` produced by
`duration_since(UNIX_EPOCH)`, with `nanos < 10^9`. The Rust formatter
returns a formatting error (on which `format!` panics) for times at or
after year 9999, i.e. `secs ≥ 253402300800`, so theorems about produced
names assume `secs < 253402300800`. -/

/-- The month-length table of the formatter, March-based with February
(29) last. -/
def monthsTable : List Int := [31, 30, 31, 30, 31, 31, 30, 31, 30, 31, 31, 29]

/-- The `for mon_len in months.iter()` loop of the formatter: increment
`mon`, break when `remdays < mon_len`, otherwise subtract and continue. -/
def monthLoop : Nat → Int → List Int → Nat × Int
  | mon, remdays, [] => (mon, remdays)
  | mon, remdays, len :: rest =>
    if remdays < len then (mon + 1, remdays)
    else monthLoop (mon + 1) (remdays - len) rest

structure CivilDate where
  year : Int
  mon : Nat
  mday : Int
deriving DecidableEq

/-- Stage one of the formatter: 400-year cycles. Rust computes the
truncating quotient and remainder of `days` by 146097 and then corrects a
negative remainder, which yields the floor decomposition. Returns
`(qc_cycles, remdays)`. -/
def stage400 (days : Int) : Int × Int :=
  let qcCycles := days.tdiv 146097
  let remdays := days.tmod 146097
  if remdays < 0 then (qcCycles - 1, remdays + 146097) else (qcCycles, remdays)

/-- Stage two: 100-year cycles, with the `c_cycles == 4` correction.
Returns `(c_cycles, remdays)`. -/
def stage100 (r : Int) : Int × Int :=
  let cCycles := r.tdiv 36524
  let cCycles := if cCycles = 4 then cCycles - 1 else cCycles
  (cCycles, r - cCycles * 36524)

/-- Stage three: 4-year cycles, with the `q_cycles == 25` correction.
Returns `(q_cycles, remdays)`. -/
def stage4 (r : Int) : Int × Int :=
  let qCycles := r.tdiv 1461
  let qCycles := if qCycles = 25 then qCycles - 1 else qCycles
  (qCycles, r - qCycles * 1461)

/-- Stage four: remaining years, with the `remyears == 4` correction.
Returns `(remyears, remdays)`. -/
def stage1 (r : Int) : Int × Int :=
  let remyears := r.tdiv 365
  let remyears := if remyears = 4 then remyears - 1 else remyears
  (remyears, r - remyears * 365)

/-- The civil-date computation of the formatter, on
`days = secs / 86400 - LEAPOCH` (`LEAPOCH = 11017`, 2000-03-01). -/
def civilFromDays (days : Int) : CivilDate :=
  let q400 := stage400 days
  let q100 := stage100 q400.2
  let q4 := stage4 q100.2
  let q1 := stage1 q4.2
  let year := 2000 + q1.1 + 4 * q4.1 + 100 * q100.1 + 400 * q400.1
  let ml := monthLoop 0 q1.2 monthsTable
  let mday := ml.2 + 1
  if ml.1 + 2 > 12 then ⟨year + 1, ml.1 - 10, mday⟩ else ⟨year, ml.1 + 2, mday⟩

/-- Byte of the ASCII digit `d`, i.e. the Rust expression `b'0' + d`. -/
def dig (d : Nat) : Nat := 48 + d

/-- The subsecond part written by Smart precision: nothing for zero
nanoseconds, otherwise a dot and the smallest of 3, 6 or 9 digits that
represents the nanosecond value exactly. -/
def rfc3339Frac (nanos : Nat) : Bytes :=
  if nanos = 0 then []
  else if nanos % 1000000 = 0 then
    [46, dig (nanos / 100000000), dig (nanos / 10000000 % 10),
     dig (nanos / 1000000 % 10)]
  else if nanos % 1000 = 0 then
    [46, dig (nanos / 100000000), dig (nanos / 10000000 % 10),
     dig (nanos / 1000000 % 10), dig (nanos / 100000 % 10),
     dig (nanos / 10000 % 10), dig (nanos / 1000 % 10)]
  else
    [46, dig (nanos / 100000000), dig (nanos / 10000000 % 10),
     dig (nanos / 1000000 % 10), dig (nanos / 100000 % 10),
     dig (nanos / 10000 % 10), dig (nanos / 1000 % 10),
     dig (nanos / 100 % 10), dig (nanos / 10 % 10), dig (nanos % 10)]

/-- The full RFC3339 byte string written by the formatter into its buffer:
`YYYY-MM-DDTHH:MM:SS`, the subsecond part, and `Z` (byte values: 45 `-`,
84 `T`, 58 `:`, 46 `.`, 90 `Z`). -/
def rfc3339Bytes (secs nanos : Nat) : Bytes :=
  let d := civilFromDays (((secs / 86400 : Nat) : Int) - 11017)
  let sod := secs % 86400
  let year := d.year.toNat
  let mon := d.mon
  let mday := d.mday.toNat
  [dig (year / 1000), dig (year / 100 % 10), dig (year / 10 % 10),
   dig (year % 10), 45,
   dig (mon / 10), dig (mon % 10), 45,
   dig (mday / 10), dig (mday % 10), 84,
   dig (sod / 3600 / 10), dig (sod / 3600 % 10), 58,
   dig (sod / 60 / 10 % 6), dig (sod / 60 % 10), 58,
   dig (sod / 10 % 6), dig (sod % 10)]
  ++ rfc3339Frac nanos ++ [90]

/-! ### Decoding the formatted timestamp

The following definitions are not part of the source; they invert the
formatter and are used to prove that distinct timestamps yield distinct
slugs (the uniqueness invariant of the temp-file naming scheme). -/

/-- Days from the start of March to the start of month `mon` in the
March-based year of the formatter (cumulative sums of `monthsTable`). -/
def monthOffset : Nat → Nat
  | 1 => 0 | 2 => 31 | 3 => 61 | 4 => 92 | 5 => 122 | 6 => 153
  | 7 => 184 | 8 => 214 | 9 => 245 | 10 => 275 | 11 => 306 | 12 => 337
  | _ => 0

/-- Inverse of the civil-date computation: rebuild the day count from a
civil date in the image of `civilFromDays`. -/
def decodeCivil (d : CivilDate) : Int :=
  let mb := if d.mon ≤ 2 then (d.mon + 10, d.year - 1) else (d.mon - 2, d.year)
  let monB := mb.1
  let yearBase := mb.2
  let v := yearBase - 2000
  let qc := v / 400
  let w := (v % 400).toNat
  let c := w / 100
  let q := w % 100 / 4
  let y := w % 4
  146097 * qc +
    ((36524 * c + 1461 * q + 365 * y + monthOffset monB + (d.mday.toNat - 1) : Nat) : Int)

/-- Read the nanosecond value back from the slugified subsecond part
followed by the final `z` (byte 122). -/
def decodeFrac : Bytes → Option Nat
  | [122] => some 0
  | [45, a, b, c, 122] =>
    some (100000000 * (a - 48) + 10000000 * (b - 48) + 1000000 * (c - 48))
  | [45, a, b, c, d, e, f, 122] =>
    some (100000000 * (a - 48) + 10000000 * (b - 48) + 1000000 * (c - 48) +
      100000 * (d - 48) + 10000 * (e - 48) + 1000 * (f - 48))
  | [45, a, b, c, d, e, f, g, h, i, 122] =>
    some (100000000 * (a - 48) + 10000000 * (b - 48) + 1000000 * (c - 48) +
      100000 * (d - 48) + 10000 * (e - 48) + 1000 * (f - 48) +
      100 * (g - 48) + 10 * (h - 48) + (i - 48))
  | _ => none

/-- Read the timestamp `(secs, nanos)` back from the slugified RFC3339
string (bytes 45 `-`, 116 `t`, 122 `z`). -/
def decodeSlugStem : Bytes → Option (Nat × Nat)
  | y3 :: y2 :: y1 :: y0 :: 45 :: mo1 :: mo0 :: 45 :: d1 :: d0 :: 116 ::
      h1 :: h0 :: 45 :: mi1 :: mi0 :: 45 :: s1 :: s0 :: rest =>
    match decodeFrac rest with
    | none => none
    | some nanos =>
      let year := 1000 * (y3 - 48) + 100 * (y2 - 48) + 10 * (y1 - 48) + (y0 - 48)
      let mon := 10 * (mo1 - 48) + (mo0 - 48)
      let mday := 10 * (d1 - 48) + (d0 - 48)
      let sod := 3600 * (10 * (h1 - 48) + (h0 - 48)) +
        60 * (10 * (mi1 - 48) + (mi0 - 48)) + (10 * (s1 - 48) + (s0 - 48))
      let days := decodeCivil ⟨(year : Int), mon, (mday : Int)⟩
      some ((days + 11017).toNat * 86400 + sod, nanos)
  | _ => none

/-! ### slug::slugify on ASCII bytes -/

/-- One step per input byte, tracking the prev-is-dash flag: ASCII
digits and lowercase letters are kept, uppercase letters are lowered,
anything else becomes a dash unless the previous output was already one. -/
def slugFold : Bool → Bytes → Bytes
  | _, [] => []
  | prevDash, b :: rest =>
    if (48 ≤ b && b ≤ 57) || (97 ≤ b && b ≤ 122) then b :: slugFold false rest
    else if 65 ≤ b && b ≤ 90 then (b + 32) :: slugFold false rest
    else if prevDash then slugFold true rest
    else 45 :: slugFold true rest

/-- slug::slugify: fold with the prev-is-dash flag initially set (so no
leading dash is ever produced) and drop a single trailing dash. -/
def slugifyBytes (s : Bytes) : Bytes :=
  let out := slugFold true s
  if out.getLast? = some 45 then out.dropLast else out

/-- Decidable bundle of the facts needed about the month loop on a day
offset within a March-based year. -/
def monthCheck (r3 : Nat) : Bool :=
  let ml := monthLoop 0 (r3 : Int) monthsTable
  decide (1 ≤ ml.1) && decide (ml.1 ≤ 12) && decide (0 ≤ ml.2) &&
    decide (ml.2 ≤ 30) && ((monthOffset ml.1 : Int) + ml.2 == (r3 : Int)) &&
    decide (11 ≤ ml.1 → 306 ≤ (r3 : Int))

/-! ### The temp-file naming scheme of lib.rs -/

/-- The function `tmp_dir` of lib.rs: `std::env::temp_dir().join("hotlib")`.
The platform temp root is an input of the model. -/
def tmpDirPath (tempRoot : Bytes) : Bytes := tempRoot ++ [47] ++ strBytes (r"hotlib")

/-- Rust `Path::with_extension` support: remove an existing extension of
the final component (the part after the last `.` that lies after the last
`/`); a name without a dot in its final component is unchanged. -/
def dropExtension (s : Bytes) : Bytes :=
  match s.reverse.dropWhile (fun b => !(b == 46) && !(b == 47)) with
  | 46 :: pre => pre.reverse
  | _ => s

/-- `dir.join(stem).with_extension(ext)` as used by `tmp_dylib_path` and
`dylib_path`. -/
def joinWithExt (dir stem ext : Bytes) : Bytes :=
  dir ++ [47] ++ dropExtension stem ++ [46] ++ ext

/-- `Build::tmp_file_stem` and `TempLibrary::tmp_file_stem`:
`{file_stem}-{slugify(format_rfc3339(timestamp))}`. -/
def tmpFileStem (pl : Platform) (libName : Bytes) (secs nanos : Nat) : Bytes :=
  fileStemBytes pl libName ++ [45] ++ slugifyBytes (rfc3339Bytes secs nanos)

/-- `Build::tmp_dylib_path` and `TempLibrary::tmp_dylib_path`:
`tmp_dir().join(tmp_file_stem).with_extension(dylib_ext())`. -/
def tmpDylibPathOf (pl : Platform) (tempRoot libName : Bytes) (secs nanos : Nat) : Bytes :=
  joinWithExt (tmpDirPath tempRoot) (tmpFileStem pl libName secs nanos) (dylibExt pl)

/-! ### Filesystem model and operation trace -/

structure FS where
  files : List (Bytes × Bytes)
deriving DecidableEq

def FS.read (fs : FS) (p : Bytes) : Option Bytes :=
  (fs.files.find? (fun e => e.1 == p)).map (fun e => e.2)

def FS.pathExists (fs : FS) (p : Bytes) : Bool := (fs.read p).isSome

def FS.write (fs : FS) (p c : Bytes) : FS := ⟨(p, c) :: fs.files⟩

/-- `std::fs::remove_file`; the boolean reports whether the file existed
(deletion succeeded). -/
def FS.removeFile (fs : FS) (p : Bytes) : FS × Bool :=
  (⟨fs.files.filter (fun e => !(e.1 == p))⟩, fs.pathExists p)

/-- Trace of the externally visible operations performed by the loading
and teardown code paths. -/
inductive FsOp
  | createDirAll (p : Bytes)
  | copyFile (src dst : Bytes)
  | writeFile (p : Bytes)
  | libNew (p : Bytes)
  | unloadLib (p : Bytes)
  | removeFile (p : Bytes)
  | runFixup (dir : Bytes) (spawnOk : Bool) (exitOk : Bool)
deriving DecidableEq

/-- Injected outcomes for the fallible external operations. -/
structure LoadEnv where
  createDirOk : Bool
  copyOk : Bool
  libNewOk : Bytes → Bool
  fixupSpawnOk : Bool
  fixupExitOk : Bool

inductive LoadErrorM
  | ioError
  | libraryError
deriving DecidableEq

inductive CreateTempLibraryErrorM
  | couldNotLoadDirectlyFromDylib (path : Bytes) (e : LoadErrorM)
  | cannotGetMetadata (path : Bytes)
  | cannotGetFileCreationTime (path : Bytes)
  | loadError (e : LoadErrorM)
deriving DecidableEq

/-- `TempLibrary`: build timestamp, temp path, and the `Option`-wrapped
library value; a loaded library is represented by the path it was loaded
from. -/
structure TempLibraryM where
  buildTimestampSecs : Nat
  buildTimestampNanos : Nat
  path : Bytes
  lib : Option Bytes
deriving DecidableEq

/-- Result of a modelled entry point: a value, an error, a Rust panic, or
the out-of-fuel marker standing for a non-terminating loop. -/
inductive Outcome (ε α : Type)
  | ok (a : α)
  | err (e : ε)
  | panicked
  | diverged
deriving DecidableEq

/-! ### Build::load -/

structure BuildM where
  libName : Bytes
  targetDirPath : Bytes
  secs : Nat
  nanos : Nat
deriving DecidableEq

/-- `Build::dylib_path`: `target_dir.join("release").join(file_stem).with_extension(ext)`. -/
def BuildM.dylibPath (pl : Platform) (b : BuildM) : Bytes :=
  joinWithExt (b.targetDirPath ++ [47] ++ strBytes (r"release"))
    (fileStemBytes pl b.libName) (dylibExt pl)

def BuildM.tmpDylibPath (pl : Platform) (tempRoot : Bytes) (b : BuildM) : Bytes :=
  tmpDylibPathOf pl tempRoot b.libName b.secs b.nanos

/-- The `loop` of `Build::load`, fuel-indexed. Each iteration: if the temp
file exists, run the macOS fixup (`install_name_tool`; a spawn failure hits
the `expect` and panics, the exit status is captured but otherwise ignored)
and hand the temp path to the loader primitive; otherwise create the temp
dir and copy the artifact, then loop. -/
def loadLoop (pl : Platform) (env : LoadEnv) (dylibPath tmpPath tmpDir : Bytes)
    (tsS tsN : Nat) :
    Nat → FS → List FsOp → Outcome LoadErrorM TempLibraryM × FS × List FsOp
  | 0, fs, tr => (.diverged, fs, tr)
  | fuel + 1, fs, tr =>
    if fs.pathExists tmpPath then
      let libStep : FS → List FsOp → Outcome LoadErrorM TempLibraryM × FS × List FsOp :=
        fun fs tr =>
          if env.libNewOk tmpPath then
            (.ok ⟨tsS, tsN, tmpPath, some tmpPath⟩, fs, tr ++ [.libNew tmpPath])
          else (.err .libraryError, fs, tr ++ [.libNew tmpPath])
      if pl = .macos then
        if env.fixupSpawnOk then
          libStep fs (tr ++ [.runFixup tmpDir true env.fixupExitOk])
        else (.panicked, fs, tr ++ [.runFixup tmpDir false false])
      else libStep fs tr
    else
      if env.createDirOk then
        let tr := tr ++ [FsOp.createDirAll tmpDir]
        match fs.read dylibPath with
        | some content =>
          if env.copyOk then
            loadLoop pl env dylibPath tmpPath tmpDir tsS tsN fuel
              (fs.write tmpPath content) (tr ++ [.copyFile dylibPath tmpPath])
          else (.err .ioError, fs, tr ++ [.copyFile dylibPath tmpPath])
        | none => (.err .ioError, fs, tr ++ [.copyFile dylibPath tmpPath])
      else (.err .ioError, fs, tr ++ [FsOp.createDirAll tmpDir])

/-- `Build::load`. The source computes `tmp_dir` as `tmp_path.parent()`,
which is `tmp_dir()` since the temp path is a single component inside it. -/
def BuildM.load (pl : Platform) (tempRoot : Bytes) (env : LoadEnv) (b : BuildM)
    (fuel : Nat) (fs : FS) : Outcome LoadErrorM TempLibraryM × FS × List FsOp :=
  loadLoop pl env (b.dylibPath pl) (b.tmpDylibPath pl tempRoot)
    (tmpDirPath tempRoot) b.secs b.nanos fuel fs []

/-! ### TempLibrary::new -/

structure NewEnv where
  load : LoadEnv
  createdOk : Bool
  createdSecs : Nat
  createdNanos : Nat

/-- The `loop` of `TempLibrary::new`. Identical control flow to the loop
of `Build::load` except that errors are wrapped in
`CreateTempLibraryError` and that the loader primitive is invoked on
`dylib_path` — the original artifact — rather than on the temporary copy. -/
def newLoop (pl : Platform) (env : LoadEnv) (dylibPath tmpPath tmpDir : Bytes)
    (tsS tsN : Nat) :
    Nat → FS → List FsOp → Outcome CreateTempLibraryErrorM TempLibraryM × FS × List FsOp
  | 0, fs, tr => (.diverged, fs, tr)
  | fuel + 1, fs, tr =>
    if fs.pathExists tmpPath then
      let libStep : FS → List FsOp →
          Outcome CreateTempLibraryErrorM TempLibraryM × FS × List FsOp :=
        fun fs tr =>
          if env.libNewOk dylibPath then
            (.ok ⟨tsS, tsN, tmpPath, some dylibPath⟩, fs, tr ++ [.libNew dylibPath])
          else
            (.err (.couldNotLoadDirectlyFromDylib dylibPath .libraryError), fs,
              tr ++ [.libNew dylibPath])
      if pl = .macos then
        if env.fixupSpawnOk then
          libStep fs (tr ++ [.runFixup tmpDir true env.fixupExitOk])
        else (.panicked, fs, tr ++ [.runFixup tmpDir false false])
      else libStep fs tr
    else
      if env.createDirOk then
        let tr := tr ++ [FsOp.createDirAll tmpDir]
        match fs.read dylibPath with
        | some content =>
          if env.copyOk then
            newLoop pl env dylibPath tmpPath tmpDir tsS tsN fuel
              (fs.write tmpPath content) (tr ++ [.copyFile dylibPath tmpPath])
          else (.err (.loadError .ioError), fs, tr ++ [.copyFile dylibPath tmpPath])
        | none => (.err (.loadError .ioError), fs, tr ++ [.copyFile dylibPath tmpPath])
      else (.err (.loadError .ioError), fs, tr ++ [FsOp.createDirAll tmpDir])

/-- The stray debug path written by `TempLibrary::new`:
`std::fs::write("/tmp/fuckafucka", ...)` (sic, quoted from the source). -/
def strayDebugPath : Bytes := strBytes (r"/tmp/fuckafucka")

/-- `TempLibrary::new`: stat the artifact, read its creation time as the
build timestamp, derive the temp path, perform the stray debug write, then
run the exists/copy loop. -/
def TempLibraryM.new (pl : Platform) (tempRoot : Bytes) (env : NewEnv)
    (dylibPath libName : Bytes) (fuel : Nat) (fs : FS) :
    Outcome CreateTempLibraryErrorM TempLibraryM × FS × List FsOp :=
  if !(fs.pathExists dylibPath) then (.err (.cannotGetMetadata dylibPath), fs, [])
  else if !env.createdOk then (.err (.cannotGetFileCreationTime dylibPath), fs, [])
  else
    let tmpPath := tmpDylibPathOf pl tempRoot libName env.createdSecs env.createdNanos
    let fs := fs.write strayDebugPath []
    newLoop pl env.load dylibPath tmpPath (tmpDirPath tempRoot)
      env.createdSecs env.createdNanos fuel fs [FsOp.writeFile strayDebugPath]

/-! ### Drop for TempLibrary -/

/-- The `Drop` implementation: `drop(self.lib.take())` — release the
library value first — and then `std::fs::remove_file(&self.path).ok()`,
whose result is discarded. Returns the handle after the drop, the
filesystem, and the trace. -/
def TempLibraryM.dropRun (h : TempLibraryM) (fs : FS) :
    TempLibraryM × FS × List FsOp :=
  let unloadTr : List FsOp := match h.lib with
    | some l => [.unloadLib l]
    | none => []
  (⟨h.buildTimestampSecs, h.buildTimestampNanos, h.path, none⟩,
    (fs.removeFile h.path).1, unloadTr ++ [.removeFile h.path])

/-! ### notify event kinds and check_raw_event -/

inductive AccessModeM
  | anyM | executeM | readM | writeM | otherM
deriving DecidableEq

inductive AccessKindM
  | anyK | readK | openK (m : AccessModeM) | closeK (m : AccessModeM) | otherK
deriving DecidableEq

inductive CreateKindM
  | anyK | fileK | folderK | otherK
deriving DecidableEq

inductive DataChangeM
  | anyC | sizeC | contentC | otherC
deriving DecidableEq

inductive MetadataKindM
  | anyK | accessTimeK | writeTimeK | permsK | ownershipK | extendedK | otherK
deriving DecidableEq

inductive RenameModeM
  | anyR | toR | fromR | bothR | otherR
deriving DecidableEq

inductive ModifyKindM
  | anyK | dataK (c : DataChangeM) | metadataK (m : MetadataKindM)
  | nameK (r : RenameModeM) | otherK
deriving DecidableEq

inductive RemoveKindM
  | anyK | fileK | folderK | otherK
deriving DecidableEq

/-- notify `EventKind`. -/
inductive EventKindM
  | anyK
  | access (a : AccessKindM)
  | create (k : CreateKindM)
  | modify (k : ModifyKindM)
  | remove (k : RemoveKindM)
  | otherK
deriving DecidableEq

def EventKindM.isCreate : EventKindM → Bool
  | .create _ => true
  | _ => false

def EventKindM.isRemove : EventKindM → Bool
  | .remove _ => true
  | _ => false

def EventKindM.isModify : EventKindM → Bool
  | .modify _ => true
  | _ => false

/-- A notify event; `check_raw_event` reads only the kind, so paths and
attributes are omitted. -/
structure EventM where
  kind : EventKindM
deriving DecidableEq

inductive NotifyErrorM
  | generic
deriving DecidableEq

inductive NextErrorM
  | channelClosed
  | notify (e : NotifyErrorM)
deriving DecidableEq

/-- The function `check_raw_event` of lib.rs. -/
def checkRawEvent (event : EventM) : Except NextErrorM Bool :=
  let closeWrite := match event.kind with
    | .access (.closeK .writeM) => true
    | _ => false
  .ok (event.kind.isCreate || event.kind.isRemove || event.kind.isModify || closeWrite)

/-! ### Watch::next over the event channel -/

structure PackageInfoM where
  manifestPath : Bytes
  srcPath : Bytes
  libName : Bytes
  targetDirPath : Bytes
deriving DecidableEq

/-- An item of the crossbeam channel: `Result<notify::Event, notify::Error>`. -/
inductive ChanItem
  | ev (e : EventM)
  | errItem (e : NotifyErrorM)
deriving DecidableEq

/-- `Watch::next`: receive in a loop until `check_raw_event` accepts an
event, then return the `Package` view (modelled by the `PackageInfo`).
An exhausted queue models the permanently closed channel, on which `recv`
fails and `next` returns `ChannelClosed`. -/
def watchNext (info : PackageInfoM) :
    List ChanItem → Except NextErrorM (PackageInfoM × List ChanItem)
  | [] => .error .channelClosed
  | .errItem e :: _ => .error (.notify e)
  | .ev e :: rest =>
    match checkRawEvent e with
    | .error err => .error err
    | .ok true => .ok (info, rest)
    | .ok false => watchNext info rest

/-! ### watch: session setup over cargo metadata -/

structure TargetM where
  kinds : List Bytes
  name : Bytes
  srcPath : Bytes
deriving DecidableEq

structure PackageJsonM where
  manifestPath : Bytes
  targets : List TargetM
deriving DecidableEq

structure MetadataM where
  targetDirectory : Bytes
  packages : List PackageJsonM
deriving DecidableEq

/-- External outcomes for `watch`: the `cargo metadata` subprocess and the
notify watcher construction. `cargoJson = none` models unparsable stdout. -/
structure WatchEnv where
  cargoIoOk : Bool
  cargoExitOk : Bool
  cargoJson : Option MetadataM
  notifyCreateOk : Bool
  notifyWatchOk : Bool

inductive WatchErrorM
  | invalidPath
  | ioErr
  | exitStatusUnsuccessful
  | jsonErr
  | noDylibTarget
  | notifyErr
deriving DecidableEq

inductive WatchOp
  | runCargoMetadata
  | createWatcher
  | watchSrcDir (p : Bytes)
deriving DecidableEq

/-- The `read_json` closure of `watch`: find the package whose
manifest-path string equals the requested one, then the first target whose
kind list contains "dylib"; return target dir, src path and lib name. -/
def readJsonM (md : MetadataM) (manifestPathStr : Bytes) :
    Option (Bytes × Bytes × Bytes) :=
  match md.packages.find? (fun pkg => pkg.manifestPath == manifestPathStr) with
  | none => none
  | some pkg =>
    match pkg.targets.find? (fun t => t.kinds.contains (strBytes (r"dylib"))) with
    | none => none
    | some t => some (md.targetDirectory, t.srcPath, t.name)

/-- The function `watch` of lib.rs: validate the manifest path, run
`cargo metadata`, parse, locate the dylib target, and only then construct
the watcher and subscribe to the src directory. -/
def watchM (env : WatchEnv) (path : Bytes) :
    Outcome WatchErrorM PackageInfoM × List WatchOp :=
  if !(endsWithFile path (strBytes (r"Cargo.toml"))
        || endsWithFile path (strBytes (r"cargo.toml"))) then
    (.err .invalidPath, [])
  else
    let tr := [WatchOp.runCargoMetadata]
    if !env.cargoIoOk then (.err .ioErr, tr)
    else if !env.cargoExitOk then (.err .exitStatusUnsuccessful, tr)
    else
      match env.cargoJson with
      | none => (.err .jsonErr, tr)
      | some md =>
        match readJsonM md path with
        | none => (.err .noDylibTarget, tr)
        | some (targetDir, srcRoot, libName) =>
          match parentPath srcRoot with
          | none => (.panicked, tr)
          | some srcDir =>
            let tr := tr ++ [WatchOp.createWatcher]
            if !env.notifyCreateOk then (.err .notifyErr, tr)
            else
              let tr := tr ++ [WatchOp.watchSrcDir srcDir]
              if !env.notifyWatchOk then (.err .notifyErr, tr)
              else (.ok ⟨path, srcDir, libName, targetDir⟩, tr)

/-! ### Auxiliary definitions used by the theorems -/

/-- The filter policy as the specification states it: worthy exactly for
created, removed, modified, or close-after-write. -/
def worthyPerClaim (k : EventKindM) : Bool :=
  match k with
  | .create _ => true
  | .remove _ => true
  | .modify _ => true
  | .access (.closeK .writeM) => true
  | _ => false

/-- A plain read-access event (not rebuild-worthy). -/
def plainAccessEv : EventM := ⟨.access .readK⟩

/-- A modification event (rebuild-worthy). -/
def modifiedEv : EventM := ⟨.modify .anyK⟩

/-- The filesystem location an operation writes to, if any. -/
def writeTargets (op : FsOp) : Option Bytes :=
  match op with
  | .createDirAll p => some p
  | .copyFile _ dst => some dst
  | .writeFile p => some p
  | _ => none

/-! ### Theorems -/

theorem monthCheck_all : ∀ r3 : Nat, r3 < 366 → monthCheck r3 = true := by decide

theorem stage400_spec (days q r : Int) (h : -146097 < days)
    (hqr : stage400 days = (q, r)) :
    days = 146097 * q + r ∧ 0 ≤ r ∧ r < 146097 := by
  have h1 := Int.tdiv_add_tmod days 146097
  simp only [stage400] at hqr
  split at hqr
  case isTrue hneg =>
    have hdneg : days < 0 := by
      by_contra hge
      exact absurd (@Int.tmod_nonneg days 146097 (by omega)) (by omega)
    have hz : days.tdiv 146097 = 0 := by
      have he : days = -(-days) := by ring
      rw [he, Int.neg_tdiv, Int.tdiv_eq_zero_of_lt (by omega) (by omega), Int.neg_zero]
    rw [hz] at h1
    injection hqr with hq hr
    subst hq; subst hr
    omega
  case isFalse hpos =>
    have hlt := Int.tmod_lt_of_pos days (show (0 : Int) < 146097 by omega)
    injection hqr with hq hr
    subst hq; subst hr
    omega

theorem stage100_spec (x q r : Int) (h0 : 0 ≤ x) (h1 : x < 146097)
    (hqr : stage100 x = (q, r)) :
    x = 36524 * q + r ∧ 0 ≤ q ∧ q ≤ 3 ∧ 0 ≤ r ∧ r ≤ 36524 := by
  have hd : x.tdiv 36524 = x / 36524 := Int.tdiv_eq_ediv h0 (by omega)
  simp only [stage100, hd] at hqr
  split at hqr
  · injection hqr with hq hr; subst hq; subst hr; omega
  · injection hqr with hq hr; subst hq; subst hr; omega

theorem stage4_spec (x q r : Int) (h0 : 0 ≤ x) (h1 : x ≤ 36524)
    (hqr : stage4 x = (q, r)) :
    x = 1461 * q + r ∧ 0 ≤ q ∧ q ≤ 24 ∧ 0 ≤ r ∧ r ≤ 1460 := by
  have hd : x.tdiv 1461 = x / 1461 := Int.tdiv_eq_ediv h0 (by omega)
  simp only [stage4, hd] at hqr
  split at hqr
  · injection hqr with hq hr; subst hq; subst hr; omega
  · injection hqr with hq hr; subst hq; subst hr; omega

theorem stage1_spec (x q r : Int) (h0 : 0 ≤ x) (h1 : x ≤ 1460)
    (hqr : stage1 x = (q, r)) :
    x = 365 * q + r ∧ 0 ≤ q ∧ q ≤ 3 ∧ 0 ≤ r ∧ r ≤ 365 := by
  have hd : x.tdiv 365 = x / 365 := Int.tdiv_eq_ediv h0 (by omega)
  simp only [stage1, hd] at hqr
  split at hqr
  · injection hqr with hq hr; subst hq; subst hr; omega
  · injection hqr with hq hr; subst hq; subst hr; omega

theorem monthLoop_spec (r3 : Int) (h0 : 0 ≤ r3) (h1 : r3 ≤ 365) :
    1 ≤ (monthLoop 0 r3 monthsTable).1 ∧ (monthLoop 0 r3 monthsTable).1 ≤ 12 ∧
    0 ≤ (monthLoop 0 r3 monthsTable).2 ∧ (monthLoop 0 r3 monthsTable).2 ≤ 30 ∧
    (monthOffset (monthLoop 0 r3 monthsTable).1 : Int) + (monthLoop 0 r3 monthsTable).2 = r3 ∧
    (11 ≤ (monthLoop 0 r3 monthsTable).1 → 306 ≤ r3) := by
  have hn : ((r3.toNat : Nat) : Int) = r3 := by omega
  have hc := monthCheck_all r3.toNat (by omega)
  unfold monthCheck at hc
  rw [hn] at hc
  simp only [Bool.and_eq_true, decide_eq_true_eq, beq_iff_eq] at hc
  exact ⟨hc.1.1.1.1.1, hc.1.1.1.1.2, hc.1.1.1.2, hc.1.1.2, hc.1.2, hc.2⟩

theorem civil_decode (days : Int) (hlo : -11017 ≤ days) (hhi : days ≤ 2921879) :
    decodeCivil (civilFromDays days) = days ∧
    0 ≤ (civilFromDays days).year ∧ (civilFromDays days).year ≤ 9999 ∧
    1 ≤ (civilFromDays days).mon ∧ (civilFromDays days).mon ≤ 12 ∧
    1 ≤ (civilFromDays days).mday ∧ (civilFromDays days).mday ≤ 31 := by
  obtain ⟨q400, r400, h400⟩ : ∃ q r, stage400 days = (q, r) := ⟨_, _, rfl⟩
  obtain ⟨e400, hr0, hr1⟩ := stage400_spec days q400 r400 (by omega) h400
  obtain ⟨q100, r100, h100⟩ : ∃ q r, stage100 r400 = (q, r) := ⟨_, _, rfl⟩
  obtain ⟨e100, hc0, hc3, hx0, hx1⟩ := stage100_spec r400 q100 r100 hr0 hr1 h100
  obtain ⟨q4v, r4v, h4⟩ : ∃ q r, stage4 r100 = (q, r) := ⟨_, _, rfl⟩
  obtain ⟨e4, hq0, hq24, hy0, hy1⟩ := stage4_spec r100 q4v r4v hx0 hx1 h4
  obtain ⟨q1v, r1v, h1⟩ : ∃ q r, stage1 r4v = (q, r) := ⟨_, _, rfl⟩
  obtain ⟨e1, hz0, hz3, hr30, hr365⟩ := stage1_spec r4v q1v r1v hy0 hy1 h1
  obtain ⟨hm1, hm12, hml0, hml30, hmoff, hm11⟩ := monthLoop_spec r1v hr30 hr365
  have hciv : civilFromDays days =
      (if (monthLoop 0 r1v monthsTable).1 + 2 > 12 then
        (⟨2000 + q1v + 4 * q4v + 100 * q100 + 400 * q400 + 1,
          (monthLoop 0 r1v monthsTable).1 - 10, (monthLoop 0 r1v monthsTable).2 + 1⟩ : CivilDate)
       else
        ⟨2000 + q1v + 4 * q4v + 100 * q100 + 400 * q400,
          (monthLoop 0 r1v monthsTable).1 + 2, (monthLoop 0 r1v monthsTable).2 + 1⟩) := by
    simp only [civilFromDays, h400, h100, h4, h1]
  rw [hciv]
  split
  case isTrue hwrap =>
    have hmm : (monthLoop 0 r1v monthsTable).1 - 10 + 10 = (monthLoop 0 r1v monthsTable).1 := by
      omega
    simp only [decodeCivil]
    rw [if_pos (show (monthLoop 0 r1v monthsTable).1 - 10 ≤ 2 by omega)]
    simp only []
    rw [hmm]
    constructor
    · have ha : (2000 + q1v + 4 * q4v + 100 * q100 + 400 * q400 + 1 - 1 - 2000) / 400 = q400 := by omega
      have hb : ((2000 + q1v + 4 * q4v + 100 * q100 + 400 * q400 + 1 - 1 - 2000) % 400).toNat / 100 = q100.toNat := by omega
      have hcq : ((2000 + q1v + 4 * q4v + 100 * q100 + 400 * q400 + 1 - 1 - 2000) % 400).toNat % 100 / 4 = q4v.toNat := by omega
      have hdq : ((2000 + q1v + 4 * q4v + 100 * q100 + 400 * q400 + 1 - 1 - 2000) % 400).toNat % 4 = q1v.toNat := by omega
      have he2 : ((monthLoop 0 r1v monthsTable).2 + 1).toNat - 1 = (monthLoop 0 r1v monthsTable).2.toNat := by omega
      rw [ha, hb, hcq, hdq, he2]
      omega
    · omega
  case isFalse hwrap =>
    simp only [decodeCivil]
    rw [if_neg (show ¬((monthLoop 0 r1v monthsTable).1 + 2 ≤ 2) by omega)]
    simp only []
    have hmm : (monthLoop 0 r1v monthsTable).1 + 2 - 2 = (monthLoop 0 r1v monthsTable).1 := by
      omega
    rw [hmm]
    constructor
    · have ha : (2000 + q1v + 4 * q4v + 100 * q100 + 400 * q400 - 2000) / 400 = q400 := by omega
      have hb : ((2000 + q1v + 4 * q4v + 100 * q100 + 400 * q400 - 2000) % 400).toNat / 100 = q100.toNat := by omega
      have hcq : ((2000 + q1v + 4 * q4v + 100 * q100 + 400 * q400 - 2000) % 400).toNat % 100 / 4 = q4v.toNat := by omega
      have hdq : ((2000 + q1v + 4 * q4v + 100 * q100 + 400 * q400 - 2000) % 400).toNat % 4 = q1v.toNat := by omega
      have he2 : ((monthLoop 0 r1v monthsTable).2 + 1).toNat - 1 = (monthLoop 0 r1v monthsTable).2.toNat := by omega
      rw [ha, hb, hcq, hdq, he2]
      omega
    · omega

theorem sf_nil (pd : Bool) : slugFold pd [] = [] := by cases pd <;> rfl

theorem sf_dig (pd : Bool) (a : Nat) (h : a ≤ 9) (rest : Bytes) :
    slugFold pd (dig a :: rest) = dig a :: slugFold false rest := by
  have hc : ((48 ≤ dig a && dig a ≤ 57) || (97 ≤ dig a && dig a ≤ 122)) = true := by
    simp only [dig, Bool.or_eq_true, Bool.and_eq_true, decide_eq_true_eq]
    omega
  simp only [slugFold, hc, if_true]

theorem sf_dig_mod10 (pd : Bool) (x : Nat) (rest : Bytes) :
    slugFold pd (dig (x % 10) :: rest) = dig (x % 10) :: slugFold false rest :=
  sf_dig pd (x % 10) (by omega) rest

theorem sf_dig_mod6 (pd : Bool) (x : Nat) (rest : Bytes) :
    slugFold pd (dig (x % 6) :: rest) = dig (x % 6) :: slugFold false rest :=
  sf_dig pd (x % 6) (by omega) rest

theorem sf_sep45 (rest : Bytes) :
    slugFold false (45 :: rest) = 45 :: slugFold true rest := by
  simp [slugFold]

theorem sf_sep58 (rest : Bytes) :
    slugFold false (58 :: rest) = 45 :: slugFold true rest := by
  simp [slugFold]

theorem sf_sep46 (rest : Bytes) :
    slugFold false (46 :: rest) = 45 :: slugFold true rest := by
  simp [slugFold]

theorem sf_tUpper (pd : Bool) (rest : Bytes) :
    slugFold pd (84 :: rest) = 116 :: slugFold false rest := by
  simp [slugFold]

theorem sf_zUpper (pd : Bool) (rest : Bytes) :
    slugFold pd (90 :: rest) = 122 :: slugFold false rest := by
  simp [slugFold]

theorem dig_sub48 (x : Nat) : dig x - 48 = x := by simp [dig]

set_option maxHeartbeats 1600000 in
theorem decode_slug_rfc (secs nanos : Nat) (hs : secs < 253402300800)
    (hn : nanos < 1000000000) :
    decodeSlugStem (slugifyBytes (rfc3339Bytes secs nanos)) = some (secs, nanos) := by
  obtain ⟨hdec, hy0, hy9999, hmon1, hmon12, hmd1, hmd31⟩ :=
    civil_decode (((secs / 86400 : Nat) : Int) - 11017) (by omega) (by omega)
  simp only [rfc3339Bytes]
  set d := civilFromDays (((secs / 86400 : Nat) : Int) - 11017) with hdd
  have e1 : d.year.toNat / 1000 = d.year.toNat / 1000 % 10 := by omega
  have e2 : d.mon / 10 = d.mon / 10 % 10 := by omega
  have e3 : d.mday.toNat / 10 = d.mday.toNat / 10 % 10 := by omega
  have e4 : secs % 86400 / 3600 / 10 = secs % 86400 / 3600 / 10 % 10 := by omega
  rw [e1, e2, e3, e4]
  by_cases h0 : nanos = 0
  · rw [show rfc3339Frac nanos = [] by simp [rfc3339Frac, h0]]
    simp only [List.cons_append, List.nil_append, List.append_nil]
    simp only [slugifyBytes]
    simp only [sf_dig_mod10, sf_dig_mod6, sf_sep45, sf_sep58, sf_sep46, sf_tUpper,
      sf_zUpper, sf_nil]
    rw [if_neg (by simp)]
    simp only [decodeSlugStem, decodeFrac]
    simp only [dig_sub48]
    have hy' : 1000 * (d.year.toNat / 1000 % 10) + 100 * (d.year.toNat / 100 % 10) +
        10 * (d.year.toNat / 10 % 10) + d.year.toNat % 10 = d.year.toNat := by omega
    have hmo' : 10 * (d.mon / 10 % 10) + d.mon % 10 = d.mon := by omega
    have hmd' : 10 * (d.mday.toNat / 10 % 10) + d.mday.toNat % 10 = d.mday.toNat := by omega
    rw [hy', hmo', hmd']
    have hyc : ((d.year.toNat : Nat) : Int) = d.year := by omega
    have hmdc : ((d.mday.toNat : Nat) : Int) = d.mday := by omega
    rw [hyc, hmdc]
    rw [show ({ year := d.year, mon := d.mon, mday := d.mday } : CivilDate) = d from rfl]
    rw [hdec]
    simp only [Option.some.injEq, Prod.mk.injEq]
    omega
  · by_cases h1 : nanos % 1000000 = 0
    · rw [show rfc3339Frac nanos = [46, dig (nanos / 100000000), dig (nanos / 10000000 % 10),
          dig (nanos / 1000000 % 10)] from by simp [rfc3339Frac, h0, h1]]
      have e5 : nanos / 100000000 = nanos / 100000000 % 10 := by omega
      rw [e5]
      simp only [List.cons_append, List.nil_append, List.append_nil]
      simp only [slugifyBytes]
      simp only [sf_dig_mod10, sf_dig_mod6, sf_sep45, sf_sep58, sf_sep46, sf_tUpper,
        sf_zUpper, sf_nil]
      rw [if_neg (by simp)]
      simp only [decodeSlugStem, decodeFrac]
      simp only [dig_sub48]
      have hy' : 1000 * (d.year.toNat / 1000 % 10) + 100 * (d.year.toNat / 100 % 10) +
          10 * (d.year.toNat / 10 % 10) + d.year.toNat % 10 = d.year.toNat := by omega
      have hmo' : 10 * (d.mon / 10 % 10) + d.mon % 10 = d.mon := by omega
      have hmd' : 10 * (d.mday.toNat / 10 % 10) + d.mday.toNat % 10 = d.mday.toNat := by omega
      rw [hy', hmo', hmd']
      have hyc : ((d.year.toNat : Nat) : Int) = d.year := by omega
      have hmdc : ((d.mday.toNat : Nat) : Int) = d.mday := by omega
      rw [hyc, hmdc]
      rw [show ({ year := d.year, mon := d.mon, mday := d.mday } : CivilDate) = d from rfl]
      rw [hdec]
      simp only [Option.some.injEq, Prod.mk.injEq]
      omega
    · by_cases h2 : nanos % 1000 = 0
      · rw [show rfc3339Frac nanos = [46, dig (nanos / 100000000), dig (nanos / 10000000 % 10),
            dig (nanos / 1000000 % 10), dig (nanos / 100000 % 10), dig (nanos / 10000 % 10),
            dig (nanos / 1000 % 10)] from by simp [rfc3339Frac, h0, h1, h2]]
        have e5 : nanos / 100000000 = nanos / 100000000 % 10 := by omega
        rw [e5]
        simp only [List.cons_append, List.nil_append, List.append_nil]
        simp only [slugifyBytes]
        simp only [sf_dig_mod10, sf_dig_mod6, sf_sep45, sf_sep58, sf_sep46, sf_tUpper,
          sf_zUpper, sf_nil]
        rw [if_neg (by simp)]
        simp only [decodeSlugStem, decodeFrac]
        simp only [dig_sub48]
        have hy' : 1000 * (d.year.toNat / 1000 % 10) + 100 * (d.year.toNat / 100 % 10) +
            10 * (d.year.toNat / 10 % 10) + d.year.toNat % 10 = d.year.toNat := by omega
        have hmo' : 10 * (d.mon / 10 % 10) + d.mon % 10 = d.mon := by omega
        have hmd' : 10 * (d.mday.toNat / 10 % 10) + d.mday.toNat % 10 = d.mday.toNat := by omega
        rw [hy', hmo', hmd']
        have hyc : ((d.year.toNat : Nat) : Int) = d.year := by omega
        have hmdc : ((d.mday.toNat : Nat) : Int) = d.mday := by omega
        rw [hyc, hmdc]
        rw [show ({ year := d.year, mon := d.mon, mday := d.mday } : CivilDate) = d from rfl]
        rw [hdec]
        simp only [Option.some.injEq, Prod.mk.injEq]
        omega
      · rw [show rfc3339Frac nanos = [46, dig (nanos / 100000000), dig (nanos / 10000000 % 10),
            dig (nanos / 1000000 % 10), dig (nanos / 100000 % 10), dig (nanos / 10000 % 10),
            dig (nanos / 1000 % 10), dig (nanos / 100 % 10), dig (nanos / 10 % 10),
            dig (nanos % 10)] from by simp [rfc3339Frac, h0, h1, h2]]
        have e5 : nanos / 100000000 = nanos / 100000000 % 10 := by omega
        rw [e5]
        simp only [List.cons_append, List.nil_append, List.append_nil]
        simp only [slugifyBytes]
        simp only [sf_dig_mod10, sf_dig_mod6, sf_sep45, sf_sep58, sf_sep46, sf_tUpper,
          sf_zUpper, sf_nil]
        rw [if_neg (by simp)]
        simp only [decodeSlugStem, decodeFrac]
        simp only [dig_sub48]
        have hy' : 1000 * (d.year.toNat / 1000 % 10) + 100 * (d.year.toNat / 100 % 10) +
            10 * (d.year.toNat / 10 % 10) + d.year.toNat % 10 = d.year.toNat := by omega
        have hmo' : 10 * (d.mon / 10 % 10) + d.mon % 10 = d.mon := by omega
        have hmd' : 10 * (d.mday.toNat / 10 % 10) + d.mday.toNat % 10 = d.mday.toNat := by omega
        rw [hy', hmo', hmd']
        have hyc : ((d.year.toNat : Nat) : Int) = d.year := by omega
        have hmdc : ((d.mday.toNat : Nat) : Int) = d.mday := by omega
        rw [hyc, hmdc]
        rw [show ({ year := d.year, mon := d.mon, mday := d.mday } : CivilDate) = d from rfl]
        rw [hdec]
        simp only [Option.some.injEq, Prod.mk.injEq]
        omega

theorem slugFold_no46 : ∀ (s : Bytes) (pd : Bool), (46 : Nat) ∉ slugFold pd s := by
  intro s
  induction s with
  | nil => intro pd; rw [sf_nil]; simp
  | cons b rest ih =>
    intro pd
    simp only [slugFold]
    split_ifs with h1 h2 h3
    · simp only [List.mem_cons, not_or]
      refine ⟨?_, ih _⟩
      simp only [Bool.or_eq_true, Bool.and_eq_true, decide_eq_true_eq] at h1
      omega
    · simp only [List.mem_cons, not_or]
      refine ⟨?_, ih _⟩
      simp only [Bool.and_eq_true, decide_eq_true_eq] at h2
      omega
    · exact ih _
    · simp only [List.mem_cons, not_or]
      exact ⟨by omega, ih _⟩

theorem slugify_no46 (s : Bytes) : (46 : Nat) ∉ slugifyBytes s := by
  simp only [slugifyBytes]
  split
  · intro hm
    exact slugFold_no46 s true (List.dropLast_subset _ hm)
  · exact slugFold_no46 s true

theorem dropExtension_of_no_dot (s : Bytes) (h : (46 : Nat) ∉ s) :
    dropExtension s = s := by
  unfold dropExtension
  split
  case h_1 pre heq =>
    exfalso
    have hsl := @List.dropWhile_subset _ s.reverse (fun b => !(b == 46) && !(b == 47))
    rw [heq] at hsl
    exact h (List.mem_reverse.mp (hsl (List.mem_cons_self 46 pre)))
  case h_2 => rfl

theorem findEntry_filter_ne (p q : Bytes) (h : p ≠ q) :
    ∀ (l : List (Bytes × Bytes)),
      (l.filter (fun e => !(e.1 == p))).find? (fun e => e.1 == q) =
        l.find? (fun e => e.1 == q) := by
  intro l
  induction l with
  | nil => rfl
  | cons e t ih =>
    by_cases hep : e.1 = p
    · have h1 : (e.1 == p) = true := by simp [hep]
      have h2 : (e.1 == q) = false := by
        simp only [beq_eq_false_iff_ne, ne_eq, hep]
        exact h
      simp [List.filter_cons, List.find?, h1, h2, ih]
    · have h1 : (e.1 == p) = false := by simp [hep]
      by_cases heq : e.1 = q
      · have h2 : (e.1 == q) = true := by simp [heq]
        simp [List.filter_cons, List.find?, h1, h2]
      · have h2 : (e.1 == q) = false := by simp [heq]
        simp [List.filter_cons, List.find?, h1, h2, ih]

theorem FS.read_removeFile_ne (fs : FS) (p q : Bytes) (h : p ≠ q) :
    ((fs.removeFile p).1).read q = fs.read q := by
  simp only [FS.removeFile, FS.read]
  rw [findEntry_filter_ne p q h fs.files]

theorem FS.read_write_ne (fs : FS) (p q c : Bytes) (h : p ≠ q) :
    (fs.write p c).read q = fs.read q := by
  have h1 : (p == q) = false := by simp [h]
  simp [FS.write, FS.read, List.find?, h1]

theorem FS.read_write_self (fs : FS) (p c : Bytes) :
    (fs.write p c).read p = some c := by
  simp [FS.write, FS.read, List.find?]

theorem FS.pathExists_write_self (fs : FS) (p c : Bytes) :
    (fs.write p c).pathExists p = true := by
  simp [FS.pathExists, FS.read_write_self]

theorem loadLoop_read_ne (pl : Platform) (env : LoadEnv)
    (dylibPath tmpPath tmpDir : Bytes) (tsS tsN : Nat) (p : Bytes)
    (hp : tmpPath ≠ p) :
    ∀ (fuel : Nat) (fs : FS) (tr : List FsOp),
      ((loadLoop pl env dylibPath tmpPath tmpDir tsS tsN fuel fs tr).2.1).read p =
        fs.read p := by
  intro fuel
  induction fuel with
  | zero => intro fs tr; rfl
  | succ n ih =>
    intro fs tr
    simp only [loadLoop]
    split
    · split
      · split
        · split <;> rfl
        · rfl
      · split <;> rfl
    · split
      · split
        · split
          · rw [ih]
            exact FS.read_write_ne fs tmpPath p _ hp
          · rfl
        · rfl
      · rfl

theorem tmpFileStem_no46 (pl : Platform) (libName : Bytes)
    (h46 : (46 : Nat) ∉ libName) (secs nanos : Nat) :
    (46 : Nat) ∉ tmpFileStem pl libName secs nanos := by
  unfold tmpFileStem
  intro hm
  rcases List.mem_append.mp hm with hm1 | hm2
  · rcases List.mem_append.mp hm1 with hm3 | hm4
    · unfold fileStemBytes at hm3
      split at hm3
      · exact h46 hm3
      · rcases List.mem_append.mp hm3 with hm5 | hm6
        · simp [strBytes] at hm5
        · exact h46 hm6
    · simp at hm4
  · exact slugify_no46 _ hm2

theorem tmpDylibPathOf_eq (pl : Platform) (tempRoot libName : Bytes)
    (h46 : (46 : Nat) ∉ libName) (secs nanos : Nat) :
    tmpDylibPathOf pl tempRoot libName secs nanos =
      tmpDirPath tempRoot ++ [47] ++ tmpFileStem pl libName secs nanos ++ [46] ++
        dylibExt pl := by
  unfold tmpDylibPathOf joinWithExt
  rw [dropExtension_of_no_dot _ (tmpFileStem_no46 pl libName h46 secs nanos)]

/-- C1: for one module name, builds completed at different (representable)
timestamps get distinct destination paths of the shape
`<tmp>/hotlib/<stem>-<slug>.<ext>`; loading a second build leaves the bytes
at the first path untouched, and tearing down a handle over one path leaves
the other path untouched. -/
theorem c1_unique_temp_paths (pl : Platform) (tempRoot libName : Bytes)
    (h46 : (46 : Nat) ∉ libName) (s1 n1 s2 n2 : Nat)
    (hv1 : s1 < 253402300800) (hn1 : n1 < 1000000000)
    (hv2 : s2 < 253402300800) (hn2 : n2 < 1000000000)
    (hne : (s1, n1) ≠ (s2, n2)) :
    tmpDylibPathOf pl tempRoot libName s1 n1 ≠
        tmpDylibPathOf pl tempRoot libName s2 n2 ∧
    tmpDylibPathOf pl tempRoot libName s1 n1 =
      tmpDirPath tempRoot ++ [47] ++ tmpFileStem pl libName s1 n1 ++ [46] ++
        dylibExt pl ∧
    (∀ (env : LoadEnv) (b : BuildM) (fuel : Nat) (fs : FS),
      b.libName = libName → b.secs = s2 → b.nanos = n2 →
      ((BuildM.load pl tempRoot env b fuel fs).2.1).read
          (tmpDylibPathOf pl tempRoot libName s1 n1) =
        fs.read (tmpDylibPathOf pl tempRoot libName s1 n1)) ∧
    (∀ (handle : TempLibraryM) (fs : FS),
      handle.path = tmpDylibPathOf pl tempRoot libName s2 n2 →
      ((handle.dropRun fs).2.1).read (tmpDylibPathOf pl tempRoot libName s1 n1) =
        fs.read (tmpDylibPathOf pl tempRoot libName s1 n1)) := by
  have hpne : tmpDylibPathOf pl tempRoot libName s1 n1 ≠
      tmpDylibPathOf pl tempRoot libName s2 n2 := by
    intro heq
    rw [tmpDylibPathOf_eq pl tempRoot libName h46 s1 n1,
      tmpDylibPathOf_eq pl tempRoot libName h46 s2 n2] at heq
    unfold tmpFileStem at heq
    simp only [List.append_assoc, List.append_cancel_left_eq, List.cons.injEq,
      true_and] at heq
    have hslug : slugifyBytes (rfc3339Bytes s1 n1) = slugifyBytes (rfc3339Bytes s2 n2) :=
      List.append_cancel_right heq
    have hr1 := decode_slug_rfc s1 n1 hv1 hn1
    rw [hslug, decode_slug_rfc s2 n2 hv2 hn2] at hr1
    simp only [Option.some.injEq, Prod.mk.injEq] at hr1
    exact hne (by simp [hr1.1, hr1.2])
  refine ⟨hpne, tmpDylibPathOf_eq pl tempRoot libName h46 s1 n1, ?_, ?_⟩
  · intro env b fuel fs hb1 hb2 hb3
    unfold BuildM.load
    apply loadLoop_read_ne
    unfold BuildM.tmpDylibPath
    rw [hb1, hb2, hb3]
    exact hpne.symm
  · intro handle fs hpath
    unfold TempLibraryM.dropRun
    simp only []
    rw [hpath]
    exact FS.read_removeFile_ne fs _ _ hpne.symm

/-- C1 witness at a concrete module name, platform and timestamp pair. -/
theorem c1_unique_temp_paths_witness :
    tmpDylibPathOf .linux (strBytes (r"/tmp")) (strBytes (r"foo")) 0 0 ≠
      tmpDylibPathOf .linux (strBytes (r"/tmp")) (strBytes (r"foo")) 1 0 :=
  (c1_unique_temp_paths .linux (strBytes (r"/tmp")) (strBytes (r"foo")) (by decide)
    0 0 1 0 (by decide) (by decide) (by decide) (by decide) (by decide)).1

/-- C5: `check_raw_event` returns true exactly for created, removed or
modified kinds, or a close-after-write access event, and false for every
other kind (plain open or read access included); it is pure and always
returns `Ok`, never an error. -/
theorem c5_event_filter (e : EventM) :
    checkRawEvent e = .ok (worthyPerClaim e.kind) := by
  obtain ⟨k⟩ := e
  rcases k with _ | a | c | m | r | _ <;> try rfl
  rcases a with _ | _ | m2 | m2 | _ <;> try rfl
  rcases m2 with _ | _ | _ | _ | _ <;> rfl

/-- C6: `Watch::next` consumes queued events until one passes the filter
and then returns exactly one package descriptor: on the sequence
[plain-access, modified, plain-access] it returns once, triggered by the
single modified event, leaving the trailing plain-access queued (a further
call finds no worthy event and, with the channel closed, fails with
`ChannelClosed`); on a closed (exhausted) channel it fails with
`ChannelClosed`; and a notify error item is surfaced as an error for that
event. -/
theorem c6_next_events :
    (∀ info : PackageInfoM,
      watchNext info [.ev plainAccessEv, .ev modifiedEv, .ev plainAccessEv] =
        .ok (info, [.ev plainAccessEv]) ∧
      watchNext info [.ev plainAccessEv] = .error .channelClosed) ∧
    (∀ info : PackageInfoM, watchNext info [] = .error .channelClosed) ∧
    (∀ (info : PackageInfoM) (e : NotifyErrorM) (rest : List ChanItem),
      watchNext info (.errItem e :: rest) = .error (.notify e)) :=
  ⟨fun _ => ⟨rfl, rfl⟩, fun _ => rfl, fun _ _ _ => rfl⟩

/-- C2: tearing down a TempLibrary releases the library value first (the
optional slot is emptied) and only afterwards attempts deletion of the
backing temp file; the deletion result is discarded so a failed deletion is
never surfaced; and a second teardown of the already-emptied handle
performs no second unload and returns normally. -/
theorem c2_teardown (handle : TempLibraryM) (l : Bytes) (fs : FS)
    (hl : handle.lib = some l) :
    (handle.dropRun fs).2.2 = [.unloadLib l, .removeFile handle.path] ∧
    (handle.dropRun fs).1.lib = none ∧
    (∀ fs2 : FS, (handle.dropRun fs2).1 = (handle.dropRun fs).1 ∧
      (handle.dropRun fs2).2.2 = (handle.dropRun fs).2.2) ∧
    (∀ fs2 : FS, ((handle.dropRun fs).1.dropRun fs2).2.2 =
        [.removeFile handle.path] ∧
      ∀ p : Bytes, FsOp.unloadLib p ∉ ((handle.dropRun fs).1.dropRun fs2).2.2) := by
  refine ⟨?_, ?_, ?_, ?_⟩
  · simp [TempLibraryM.dropRun, hl]
  · simp [TempLibraryM.dropRun]
  · intro fs2
    constructor <;> simp [TempLibraryM.dropRun]
  · intro fs2
    constructor
    · simp [TempLibraryM.dropRun]
    · intro p
      simp [TempLibraryM.dropRun]

/-- C2 witness at a concrete occupied handle. -/
theorem c2_teardown_witness :
    ((⟨0, 0, [1], some [2]⟩ : TempLibraryM).dropRun ⟨[]⟩).2.2 =
      [.unloadLib [2], .removeFile [1]] :=
  (c2_teardown ⟨0, 0, [1], some [2]⟩ [2] ⟨[]⟩ rfl).1

/-- C3: when the destination temp file already exists, `Build::load` skips
the copy (no copy operation appears in the trace and the filesystem is
unchanged, so the destination bytes are not rewritten), does not error
because the destination exists, and returns a fresh handle over that same
destination path. -/
theorem c3_idempotent_load (pl : Platform) (tempRoot : Bytes) (env : LoadEnv)
    (b : BuildM) (fs : FS) (fuel : Nat)
    (hex : fs.pathExists (b.tmpDylibPath pl tempRoot) = true)
    (hlib : env.libNewOk (b.tmpDylibPath pl tempRoot) = true)
    (hfix : pl = .macos → env.fixupSpawnOk = true) (hfuel : 1 ≤ fuel) :
    (BuildM.load pl tempRoot env b fuel fs).1 =
      .ok ⟨b.secs, b.nanos, b.tmpDylibPath pl tempRoot,
        some (b.tmpDylibPath pl tempRoot)⟩ ∧
    (BuildM.load pl tempRoot env b fuel fs).2.1 = fs ∧
    (∀ src dst : Bytes,
      FsOp.copyFile src dst ∉ (BuildM.load pl tempRoot env b fuel fs).2.2) := by
  obtain ⟨n, rfl⟩ : ∃ n, fuel = n + 1 := ⟨fuel - 1, by omega⟩
  unfold BuildM.load
  by_cases hpl : pl = .macos
  · subst hpl
    simp [loadLoop, hex, hfix rfl, hlib]
  · simp [loadLoop, hex, hlib, if_neg hpl]

/-- C7 counterexample: on macOS, when the `install_name_tool` subprocess
fails to start, `Build::load` panics (the source calls `.expect(...)` on
the spawn result), so a fixup failure is not always non-fatal as the claim
states. -/
theorem c7_fixup_spawn_failure_panics :
    (BuildM.load .macos (strBytes (r"/tmp"))
        ⟨true, true, fun _ => true, false, true⟩
        ⟨strBytes (r"foo"), strBytes (r"/t"), 0, 0⟩ 1
        (FS.write ⟨[]⟩ (BuildM.tmpDylibPath .macos (strBytes (r"/tmp"))
          ⟨strBytes (r"foo"), strBytes (r"/t"), 0, 0⟩) [])).1 = .panicked := by
  unfold BuildM.load
  simp [loadLoop, FS.pathExists_write_self]

/-- C7 amended: on any platform, when the fixup subprocess starts
successfully, its exit status is immaterial: outcome and filesystem are
identical for success and failure exit status (the output is at most
logged), loading proceeds to the loader-primitive step, and the load
neither panics nor returns an I/O error because of the fixup — in both the
`Build::load` loop and the `TempLibrary::new` loop. Only a failure to
START the subprocess panics (see the counterexample). -/
theorem c7_amended (pl : Platform) (env : LoadEnv)
    (dylibPath tmpPath tmpDir : Bytes) (tsS tsN : Nat) (fuel : Nat) (fs : FS)
    (tr : List FsOp) (hspawn : env.fixupSpawnOk = true)
    (hex : fs.pathExists tmpPath = true) (hfuel : 1 ≤ fuel) (b1 b2 : Bool) :
    ((loadLoop pl { env with fixupExitOk := b1 } dylibPath tmpPath tmpDir tsS tsN
        fuel fs tr).1 =
      (loadLoop pl { env with fixupExitOk := b2 } dylibPath tmpPath tmpDir tsS tsN
        fuel fs tr).1) ∧
    ((loadLoop pl { env with fixupExitOk := b1 } dylibPath tmpPath tmpDir tsS tsN
        fuel fs tr).2.1 = fs) ∧
    (FsOp.libNew tmpPath ∈
      (loadLoop pl { env with fixupExitOk := b1 } dylibPath tmpPath tmpDir tsS tsN
        fuel fs tr).2.2) ∧
    ((loadLoop pl { env with fixupExitOk := b1 } dylibPath tmpPath tmpDir tsS tsN
        fuel fs tr).1 ≠ .panicked) ∧
    ((loadLoop pl { env with fixupExitOk := b1 } dylibPath tmpPath tmpDir tsS tsN
        fuel fs tr).1 ≠ .err .ioError) ∧
    ((newLoop pl { env with fixupExitOk := b1 } dylibPath tmpPath tmpDir tsS tsN
        fuel fs tr).1 =
      (newLoop pl { env with fixupExitOk := b2 } dylibPath tmpPath tmpDir tsS tsN
        fuel fs tr).1) ∧
    (FsOp.libNew dylibPath ∈
      (newLoop pl { env with fixupExitOk := b1 } dylibPath tmpPath tmpDir tsS tsN
        fuel fs tr).2.2) ∧
    ((newLoop pl { env with fixupExitOk := b1 } dylibPath tmpPath tmpDir tsS tsN
        fuel fs tr).1 ≠ .panicked) ∧
    ((newLoop pl { env with fixupExitOk := b1 } dylibPath tmpPath tmpDir tsS tsN
        fuel fs tr).1 ≠ .err (.loadError .ioError)) := by
  obtain ⟨n, rfl⟩ : ∃ n, fuel = n + 1 := ⟨fuel - 1, by omega⟩
  by_cases hpl : pl = .macos
  · subst hpl
    simp only [loadLoop, newLoop, hex, hspawn, reduceIte]
    refine ⟨?_, ?_, ?_, ?_, ?_, ?_, ?_, ?_, ?_⟩ <;> (try split) <;> simp
  · simp only [loadLoop, newLoop, hex, if_neg hpl, reduceIte]
    refine ⟨?_, ?_, ?_, ?_, ?_, ?_, ?_, ?_, ?_⟩ <;> (try split) <;> simp

theorem loadLoop_libNew_target (pl : Platform) (env : LoadEnv)
    (dylibPath tmpPath tmpDir : Bytes) (tsS tsN : Nat) :
    ∀ (fuel : Nat) (fs : FS) (tr : List FsOp) (p : Bytes),
      FsOp.libNew p ∈
          (loadLoop pl env dylibPath tmpPath tmpDir tsS tsN fuel fs tr).2.2 →
      FsOp.libNew p ∈ tr ∨ p = tmpPath := by
  intro fuel
  induction fuel with
  | zero => intro fs tr p hm; exact .inl hm
  | succ n ih =>
    intro fs tr p hm
    simp only [loadLoop] at hm
    split at hm
    · split at hm
      · split at hm
        · split at hm <;>
            (simp only [List.mem_append, List.mem_singleton] at hm
             rcases hm with (hm | hm) | hm
             · exact .inl hm
             · exact absurd hm (by simp)
             · exact .inr (by injection hm))
        · simp only [List.mem_append, List.mem_singleton] at hm
          rcases hm with hm | hm
          · exact .inl hm
          · exact absurd hm (by simp)
      · split at hm <;>
          (simp only [List.mem_append, List.mem_singleton] at hm
           rcases hm with hm | hm
           · exact .inl hm
           · exact .inr (by injection hm))
    · split at hm
      · split at hm
        · split at hm
          · rcases ih _ _ _ hm with hm2 | hm2
            · simp only [List.mem_append, List.mem_singleton] at hm2
              rcases hm2 with (hm2 | hm2) | hm2
              · exact .inl hm2
              · exact absurd hm2 (by simp)
              · exact absurd hm2 (by simp)
            · exact .inr hm2
          · simp only [List.mem_append, List.mem_singleton] at hm
            rcases hm with (hm | hm) | hm
            · exact .inl hm
            · exact absurd hm (by simp)
            · exact absurd hm (by simp)
        · simp only [List.mem_append, List.mem_singleton] at hm
          rcases hm with (hm | hm) | hm
          · exact .inl hm
          · exact absurd hm (by simp)
          · exact absurd hm (by simp)
      · simp only [List.mem_append, List.mem_singleton] at hm
        rcases hm with hm | hm
        · exact .inl hm
        · exact absurd hm (by simp)

theorem newLoop_libNew_target (pl : Platform) (env : LoadEnv)
    (dylibPath tmpPath tmpDir : Bytes) (tsS tsN : Nat) :
    ∀ (fuel : Nat) (fs : FS) (tr : List FsOp) (p : Bytes),
      FsOp.libNew p ∈
          (newLoop pl env dylibPath tmpPath tmpDir tsS tsN fuel fs tr).2.2 →
      FsOp.libNew p ∈ tr ∨ p = dylibPath := by
  intro fuel
  induction fuel with
  | zero => intro fs tr p hm; exact .inl hm
  | succ n ih =>
    intro fs tr p hm
    simp only [newLoop] at hm
    split at hm
    · split at hm
      · split at hm
        · split at hm <;>
            (simp only [List.mem_append, List.mem_singleton] at hm
             rcases hm with (hm | hm) | hm
             · exact .inl hm
             · exact absurd hm (by simp)
             · exact .inr (by injection hm))
        · simp only [List.mem_append, List.mem_singleton] at hm
          rcases hm with hm | hm
          · exact .inl hm
          · exact absurd hm (by simp)
      · split at hm <;>
          (simp only [List.mem_append, List.mem_singleton] at hm
           rcases hm with hm | hm
           · exact .inl hm
           · exact .inr (by injection hm))
    · split at hm
      · split at hm
        · split at hm
          · rcases ih _ _ _ hm with hm2 | hm2
            · simp only [List.mem_append, List.mem_singleton] at hm2
              rcases hm2 with (hm2 | hm2) | hm2
              · exact .inl hm2
              · exact absurd hm2 (by simp)
              · exact absurd hm2 (by simp)
            · exact .inr hm2
          · simp only [List.mem_append, List.mem_singleton] at hm
            rcases hm with (hm | hm) | hm
            · exact .inl hm
            · exact absurd hm (by simp)
            · exact absurd hm (by simp)
        · simp only [List.mem_append, List.mem_singleton] at hm
          rcases hm with (hm | hm) | hm
          · exact .inl hm
          · exact absurd hm (by simp)
          · exact absurd hm (by simp)
      · simp only [List.mem_append, List.mem_singleton] at hm
        rcases hm with hm | hm
        · exact .inl hm
        · exact absurd hm (by simp)

/-- C4: in `Build::load` the loader primitive is only ever invoked on the
destination temp path, and copy and loader failures are distinguished as
`Io` versus `Library` errors; but `TempLibrary::new` invokes the loader
primitive on the ORIGINAL artifact path, not on the destination copy — the
concrete run shows the loader receiving `/proj/libfoo.so` while the handle
records the distinct temp destination. This contradicts the claim for the
`TempLibrary::new` entry point (code bug: the temp-copy scheme and the
struct documentation intend the copy to be loaded). -/
theorem c4_loader_invocation :
    (∀ (pl : Platform) (tempRoot : Bytes) (env : LoadEnv) (b : BuildM)
        (fuel : Nat) (fs : FS) (p : Bytes),
      FsOp.libNew p ∈ (BuildM.load pl tempRoot env b fuel fs).2.2 →
      p = b.tmpDylibPath pl tempRoot) ∧
    (∀ (pl : Platform) (tempRoot : Bytes) (env : NewEnv)
        (dylibPath libName : Bytes) (fuel : Nat) (fs : FS) (p : Bytes),
      FsOp.libNew p ∈
          (TempLibraryM.new pl tempRoot env dylibPath libName fuel fs).2.2 →
      p = dylibPath) ∧
    ((TempLibraryM.new .linux (strBytes (r"/tmp"))
        ⟨⟨true, true, fun _ => true, true, true⟩, true, 0, 0⟩
        (strBytes (r"/proj/libfoo.so")) (strBytes (r"foo")) 2
        ⟨[(strBytes (r"/proj/libfoo.so"), [7])]⟩).1 =
      .ok ⟨0, 0, tmpDylibPathOf .linux (strBytes (r"/tmp")) (strBytes (r"foo")) 0 0,
        some (strBytes (r"/proj/libfoo.so"))⟩ ∧
      FsOp.libNew (strBytes (r"/proj/libfoo.so")) ∈
        (TempLibraryM.new .linux (strBytes (r"/tmp"))
          ⟨⟨true, true, fun _ => true, true, true⟩, true, 0, 0⟩
          (strBytes (r"/proj/libfoo.so")) (strBytes (r"foo")) 2
          ⟨[(strBytes (r"/proj/libfoo.so"), [7])]⟩).2.2 ∧
      strBytes (r"/proj/libfoo.so") ≠
        tmpDylibPathOf .linux (strBytes (r"/tmp")) (strBytes (r"foo")) 0 0) ∧
    ((BuildM.load .linux (strBytes (r"/t")) ⟨true, false, fun _ => true, true, true⟩
        ⟨strBytes (r"foo"), strBytes (r"/t"), 0, 0⟩ 2
        ⟨[(BuildM.dylibPath .linux ⟨strBytes (r"foo"), strBytes (r"/t"), 0, 0⟩, [7])]⟩).1 =
      .err .ioError) ∧
    ((BuildM.load .linux (strBytes (r"/t")) ⟨true, true, fun _ => false, true, true⟩
        ⟨strBytes (r"foo"), strBytes (r"/t"), 0, 0⟩ 2
        ⟨[(BuildM.dylibPath .linux ⟨strBytes (r"foo"), strBytes (r"/t"), 0, 0⟩, [7])]⟩).1 =
      .err .libraryError) := by
  refine ⟨?_, ?_, by decide, by decide, by decide⟩
  · intro pl tempRoot env b fuel fs p hm
    rcases loadLoop_libNew_target pl env (b.dylibPath pl) (b.tmpDylibPath pl tempRoot)
        (tmpDirPath tempRoot) b.secs b.nanos fuel fs [] p hm with hm2 | hm2
    · exact absurd hm2 (by simp)
    · exact hm2
  · intro pl tempRoot env dylibPath libName fuel fs p hm
    unfold TempLibraryM.new at hm
    split at hm
    · exact absurd hm (by simp)
    · split at hm
      · exact absurd hm (by simp)
      · rcases newLoop_libNew_target pl env.load dylibPath _ _ _ _ fuel _ _ p hm
            with hm2 | hm2
        · exact absurd hm2 (by simp)
        · exact hm2

theorem leadsWith_append_self : ∀ a rest : Bytes, leadsWith a (a ++ rest) = true := by
  intro a
  induction a with
  | nil => intro rest; rfl
  | cons x xs ih => intro rest; simp [leadsWith, ih]

theorem trace_inv_append {Q : FsOp → Prop} (tr2 ops : List FsOp)
    (h1 : ∀ op ∈ tr2, Q op) (h2 : ∀ op ∈ ops, Q op) :
    ∀ op ∈ tr2 ++ ops, Q op := by
  intro op hm
  rcases List.mem_append.mp hm with h | h
  · exact h1 _ h
  · exact h2 _ h

theorem loadLoop_writes_within (pl : Platform) (env : LoadEnv)
    (dp tp td : Bytes) (tsS tsN : Nat)
    (htp : tp = td ∨ leadsWith (td ++ [47]) tp = true) :
    ∀ (fuel : Nat) (fs : FS) (tr : List FsOp),
      (∀ op ∈ tr, ∀ p, writeTargets op = some p →
        p = td ∨ leadsWith (td ++ [47]) p = true) →
      ∀ op ∈ (loadLoop pl env dp tp td tsS tsN fuel fs tr).2.2,
        ∀ p, writeTargets op = some p →
          p = td ∨ leadsWith (td ++ [47]) p = true := by
  intro fuel
  induction fuel with
  | zero => intro fs tr hinv; exact hinv
  | succ n ih =>
    intro fs tr hinv
    have hfix : ∀ sp eo, ∀ op ∈ [FsOp.runFixup td sp eo], ∀ p,
        writeTargets op = some p → p = td ∨ leadsWith (td ++ [47]) p = true := by
      intro sp eo op hm p hp
      simp only [List.mem_singleton] at hm
      subst hm
      simp [writeTargets] at hp
    have hlib : ∀ q, ∀ op ∈ [FsOp.libNew q], ∀ p,
        writeTargets op = some p → p = td ∨ leadsWith (td ++ [47]) p = true := by
      intro q op hm p hp
      simp only [List.mem_singleton] at hm
      subst hm
      simp [writeTargets] at hp
    have hdir : ∀ op ∈ [FsOp.createDirAll td], ∀ p,
        writeTargets op = some p → p = td ∨ leadsWith (td ++ [47]) p = true := by
      intro op hm p hp
      simp only [List.mem_singleton] at hm
      subst hm
      simp only [writeTargets, Option.some.injEq] at hp
      exact hp ▸ .inl rfl
    have hcopy : ∀ op ∈ [FsOp.copyFile dp tp], ∀ p,
        writeTargets op = some p → p = td ∨ leadsWith (td ++ [47]) p = true := by
      intro op hm p hp
      simp only [List.mem_singleton] at hm
      subst hm
      simp only [writeTargets, Option.some.injEq] at hp
      exact hp ▸ htp
    simp only [loadLoop]
    split
    · split
      · split
        · split
          · exact trace_inv_append _ _ (trace_inv_append _ _ hinv (hfix _ _)) (hlib _)
          · exact trace_inv_append _ _ (trace_inv_append _ _ hinv (hfix _ _)) (hlib _)
        · exact trace_inv_append _ _ hinv (hfix _ _)
      · split
        · exact trace_inv_append _ _ hinv (hlib _)
        · exact trace_inv_append _ _ hinv (hlib _)
    · split
      · split
        · split
          · exact ih _ _ (trace_inv_append _ _ (trace_inv_append _ _ hinv hdir) hcopy)
          · exact trace_inv_append _ _ (trace_inv_append _ _ hinv hdir) hcopy
        · exact trace_inv_append _ _ (trace_inv_append _ _ hinv hdir) hcopy
      · exact trace_inv_append _ _ hinv hdir

/-- C8: every filesystem location written by `Build::load` is the dedicated
temp directory `<tempRoot>/hotlib` itself or a path inside it; but
`TempLibrary::new` also writes the stray debug file `/tmp/fuckafucka`,
which lies outside the dedicated directory (shown on a concrete run,
together with the file actually appearing in the filesystem) — a code bug
contradicting the no-state-outside-the-temp-dir claim. -/
theorem c8_frame :
    (∀ (pl : Platform) (tempRoot : Bytes) (env : LoadEnv) (b : BuildM)
        (fuel : Nat) (fs : FS) (op : FsOp),
      op ∈ (BuildM.load pl tempRoot env b fuel fs).2.2 →
      ∀ p, writeTargets op = some p →
        p = tmpDirPath tempRoot ∨
          leadsWith (tmpDirPath tempRoot ++ [47]) p = true) ∧
    (FsOp.writeFile strayDebugPath ∈
        (TempLibraryM.new .linux (strBytes (r"/tmp"))
          ⟨⟨true, true, fun _ => true, true, true⟩, true, 0, 0⟩
          (strBytes (r"/proj/libfoo.so")) (strBytes (r"foo")) 2
          ⟨[(strBytes (r"/proj/libfoo.so"), [7])]⟩).2.2 ∧
      (TempLibraryM.new .linux (strBytes (r"/tmp"))
          ⟨⟨true, true, fun _ => true, true, true⟩, true, 0, 0⟩
          (strBytes (r"/proj/libfoo.so")) (strBytes (r"foo")) 2
          ⟨[(strBytes (r"/proj/libfoo.so"), [7])]⟩).2.1.read strayDebugPath =
        some [] ∧
      ¬(strayDebugPath = tmpDirPath (strBytes (r"/tmp")) ∨
        leadsWith (tmpDirPath (strBytes (r"/tmp")) ++ [47]) strayDebugPath = true)) := by
  constructor
  · intro pl tempRoot env b fuel fs op hm p hp
    refine loadLoop_writes_within pl env (b.dylibPath pl) (b.tmpDylibPath pl tempRoot)
      (tmpDirPath tempRoot) b.secs b.nanos ?_ fuel fs [] ?_ op hm p hp
    · right
      have hshape : b.tmpDylibPath pl tempRoot =
          (tmpDirPath tempRoot ++ [47]) ++
            (dropExtension (tmpFileStem pl b.libName b.secs b.nanos) ++ [46] ++
              dylibExt pl) := by
        simp [BuildM.tmpDylibPath, tmpDylibPathOf, joinWithExt, List.append_assoc]
      rw [hshape]
      exact leadsWith_append_self _ _
    · intro op2 hm2
      simp at hm2
  · exact ⟨by decide, by decide, by decide⟩

/-- C9 counterexample: metadata containing TWO dylib targets is accepted by
`watch` (the first target is used), so session setup does not require
EXACTLY one dylib target as the claim words it — it requires at least one. -/
theorem c9_two_dylib_targets_accepted :
    (watchM ⟨true, true, some ⟨strBytes (r"/t"),
        [⟨strBytes (r"/proj/Cargo.toml"),
          [⟨[strBytes (r"dylib")], strBytes (r"a"), strBytes (r"/proj/src/lib.rs")⟩,
           ⟨[strBytes (r"dylib")], strBytes (r"b"), strBytes (r"/proj/src/lib2.rs")⟩]⟩]⟩,
        true, true⟩ (strBytes (r"/proj/Cargo.toml"))).1 =
      .ok ⟨strBytes (r"/proj/Cargo.toml"), strBytes (r"/proj/src"), strBytes (r"a"),
        strBytes (r"/t")⟩ := by
  decide

/-- C9 amended: session setup requires at least one target of kind dylib in
the package matching the manifest (the first such target is used): when
there is none, `watch` fails with `NoDylibTarget` and the trace shows no
watcher was created and nothing was subscribed. -/
theorem c9_no_dylib_target (env : WatchEnv) (path : Bytes) (md : MetadataM)
    (hvalid : (endsWithFile path (strBytes (r"Cargo.toml"))
        || endsWithFile path (strBytes (r"cargo.toml"))) = true)
    (hio : env.cargoIoOk = true) (hexit : env.cargoExitOk = true)
    (hjson : env.cargoJson = some md)
    (hnod : ∀ pkg ∈ md.packages, pkg.manifestPath = path →
      ∀ t ∈ pkg.targets, strBytes (r"dylib") ∉ t.kinds) :
    watchM env path = (.err .noDylibTarget, [WatchOp.runCargoMetadata]) ∧
    WatchOp.createWatcher ∉ (watchM env path).2 := by
  have hrj : readJsonM md path = none := by
    unfold readJsonM
    cases hfp : md.packages.find? (fun pkg => pkg.manifestPath == path) with
    | none => rfl
    | some pkg =>
      have hmem := List.mem_of_find?_eq_some hfp
      have hprop := List.find?_some hfp
      have hnone : pkg.targets.find?
          (fun t => t.kinds.contains (strBytes (r"dylib"))) = none := by
        rw [List.find?_eq_none]
        intro t ht
        have hk := hnod pkg hmem (by simpa using hprop) t ht
        simp [List.contains, hk]
      simp only [hnone]
  have hw : watchM env path = (.err .noDylibTarget, [WatchOp.runCargoMetadata]) := by
    unfold watchM
    rw [hvalid]
    simp only [Bool.not_true, Bool.false_eq_true, reduceIte, hio, hexit, hjson, hrj]
  exact ⟨hw, by rw [hw]; simp⟩

/-- C9 witness at concrete metadata without any dylib target. -/
theorem c9_no_dylib_target_witness :
    watchM ⟨true, true, some ⟨strBytes (r"/t"),
        [⟨strBytes (r"/proj/Cargo.toml"),
          [⟨[strBytes (r"lib")], strBytes (r"a"), strBytes (r"/proj/src/lib.rs")⟩]⟩]⟩,
        true, true⟩ (strBytes (r"/proj/Cargo.toml")) =
      (.err .noDylibTarget, [WatchOp.runCargoMetadata]) :=
  (c9_no_dylib_target _ _ _ (by decide) rfl rfl rfl (by decide)).1

theorem loadLoop_ne_diverged (pl : Platform) (env : LoadEnv)
    (dp tp td : Bytes) (tsS tsN : Nat) (fuel : Nat) (fs : FS) (tr : List FsOp)
    (hfuel : 2 ≤ fuel) :
    (loadLoop pl env dp tp td tsS tsN fuel fs tr).1 ≠ .diverged := by
  obtain ⟨n, rfl⟩ : ∃ n, fuel = n + 2 := ⟨fuel - 2, by omega⟩
  simp only [loadLoop]
  split
  · split
    · split
      · split <;> simp
      · simp
    · split <;> simp
  · split
    · split
      · split
        · simp only [loadLoop, FS.pathExists_write_self, reduceIte]
          split
          · split
            · split <;> simp
            · simp
          · split <;> simp
        · simp
      · simp
    · simp

theorem newLoop_ne_diverged (pl : Platform) (env : LoadEnv)
    (dp tp td : Bytes) (tsS tsN : Nat) (fuel : Nat) (fs : FS) (tr : List FsOp)
    (hfuel : 2 ≤ fuel) :
    (newLoop pl env dp tp td tsS tsN fuel fs tr).1 ≠ .diverged := by
  obtain ⟨n, rfl⟩ : ∃ n, fuel = n + 2 := ⟨fuel - 2, by omega⟩
  simp only [newLoop]
  split
  · split
    · split
      · split <;> simp
      · simp
    · split <;> simp
  · split
    · split
      · split
        · simp only [newLoop, FS.pathExists_write_self, reduceIte]
          split
          · split
            · split <;> simp
            · simp
          · split <;> simp
        · simp
      · simp
    · simp

/-- C10: both loading entry points terminate: with fuel 2 the modelled
loops of `Build::load` and `TempLibrary::new` never hit the out-of-fuel
marker (each iteration either returns or makes the destination exist so
the next iteration returns), and a failed copy returns an I/O error
immediately instead of retrying: the loop performs exactly one
create-dir and one copy attempt. -/
theorem c10_termination (pl : Platform) (tempRoot : Bytes) (env : LoadEnv)
    (env2 : NewEnv) (b : BuildM) (dylibPath libName : Bytes) (fuel : Nat)
    (fs : FS) (hfuel : 2 ≤ fuel) :
    (BuildM.load pl tempRoot env b fuel fs).1 ≠ .diverged ∧
    (TempLibraryM.new pl tempRoot env2 dylibPath libName fuel fs).1 ≠ .diverged ∧
    (fs.pathExists (b.tmpDylibPath pl tempRoot) = false → env.createDirOk = true →
      env.copyOk = false →
      BuildM.load pl tempRoot env b fuel fs =
        (.err .ioError, fs, [FsOp.createDirAll (tmpDirPath tempRoot),
          FsOp.copyFile (b.dylibPath pl) (b.tmpDylibPath pl tempRoot)])) := by
  refine ⟨loadLoop_ne_diverged _ _ _ _ _ _ _ _ _ _ hfuel, ?_, ?_⟩
  · unfold TempLibraryM.new
    split
    · simp
    · split
      · simp
      · exact newLoop_ne_diverged _ _ _ _ _ _ _ _ _ _ hfuel
  · intro hnex hdir hcopy
    obtain ⟨n, rfl⟩ : ∃ n, fuel = n + 2 := ⟨fuel - 2, by omega⟩
    unfold BuildM.load
    simp only [loadLoop, hnex, hdir, hcopy, Bool.false_eq_true, reduceIte]
    split
    · simp
    · simp

/-- C3 witness: a second load over an existing destination leaves the filesystem unchanged. -/
theorem c3_idempotent_load_witness :
    (BuildM.load .linux (strBytes (r"/tmp")) ⟨true, true, fun _ => true, true, true⟩
        ⟨strBytes (r"foo"), strBytes (r"/t"), 0, 0⟩ 1
        (FS.write ⟨[]⟩
          (BuildM.tmpDylibPath .linux (strBytes (r"/tmp"))
            ⟨strBytes (r"foo"), strBytes (r"/t"), 0, 0⟩) [])).2.1 =
      FS.write ⟨[]⟩
        (BuildM.tmpDylibPath .linux (strBytes (r"/tmp"))
          ⟨strBytes (r"foo"), strBytes (r"/t"), 0, 0⟩) [] :=
  (c3_idempotent_load .linux (strBytes (r"/tmp")) ⟨true, true, fun _ => true, true, true⟩
    ⟨strBytes (r"foo"), strBytes (r"/t"), 0, 0⟩ _ 1
    (FS.pathExists_write_self _ _ _) rfl (by decide) (by decide)).2.1

/-- C7 witness: with the fixup spawn succeeding and a non-zero exit, loading still reaches the loader primitive. -/
theorem c7_amended_witness :
    FsOp.libNew [1] ∈
      (loadLoop .macos ⟨true, true, fun _ => true, true, false⟩ [0] [1] [2] 0 0 1
        (FS.write ⟨[]⟩ [1] []) []).2.2 :=
  (c7_amended .macos ⟨true, true, fun _ => true, true, true⟩ [0] [1] [2] 0 0 1
    (FS.write ⟨[]⟩ [1] []) [] rfl (FS.pathExists_write_self _ _ _) (by decide)
    false true).2.2.1

/-- C10 witness at a concrete build and empty filesystem. -/
theorem c10_termination_witness :
    (BuildM.load .linux (strBytes (r"/t")) ⟨true, true, fun _ => true, true, true⟩
        ⟨strBytes (r"foo"), strBytes (r"/t"), 0, 0⟩ 2 ⟨[]⟩).1 ≠ .diverged :=
  (c10_termination .linux (strBytes (r"/t")) ⟨true, true, fun _ => true, true, true⟩
    ⟨⟨true, true, fun _ => true, true, true⟩, true, 0, 0⟩
    ⟨strBytes (r"foo"), strBytes (r"/t"), 0, 0⟩ (strBytes (r"/d")) (strBytes (r"foo"))
    2 ⟨[]⟩ (by decide)).1
